import Mathlib

/-!
Shallow embedding of the supporter-video trailer application (src/app.py)
and verification of its specification claims.

Python values parsed from JSON are modelled by the inductive type JValue
(Python int and float are kept distinct, as json.loads produces them).
Python strings are Lean Strings; the Python string primitives used by the
code (split, find, strip, startswith, slicing, int(), float()) are defined
below over the character list of the string.  json.loads itself is an
external library routine and is modelled as a parameter
jparse : String -> Option JValue, where none models a JSONDecodeError.
Calls to HTTP endpoints and to media tools are modelled by explicit world
values / oracles, since they are external effects.
-/

set_option autoImplicit false

namespace SupporterVideo

/-- Values produced by Python json.loads: null, booleans, ints, floats
(modelled exactly, as rationals), strings, arrays and objects. -/
inductive JValue where
  | jnull : JValue
  | jbool (b : Bool) : JValue
  | jint (n : Int) : JValue
  | jfloat (q : Rat) : JValue
  | jstr (s : String) : JValue
  | jarr (elems : List JValue) : JValue
  | jobj (fields : List (String × JValue)) : JValue

/-- Python dict lookup on an association list; for duplicate keys the last
binding wins, matching how json.loads builds a dict. -/
def dictLookup (fs : List (String × JValue)) (k : String) : Option JValue :=
  (fs.reverse.find? (fun p => p.1 == k)).map (·.2)

/-- Python whitespace characters stripped by str.strip and matched by \s
(ASCII part; the inputs handled by the app are ASCII). -/
def isPyWs (c : Char) : Bool :=
  c = ' ' || c = '\t' || c = '\n' || c = '\r' || c = '\x0b' || c = '\x0c'

/-- str.strip() on a character list. -/
def stripWs (l : List Char) : List Char :=
  ((l.dropWhile isPyWs).reverse.dropWhile isPyWs).reverse

/-- str.strip() on a string. -/
def pyStrip (s : String) : String := String.mk (stripWs s.data)

/-- Python single-character str.split: splits at every occurrence of the
separator and keeps empty pieces, so splitList c [] = [[]]. -/
def splitList (sep : Char) : List Char → List (List Char)
  | [] => [[]]
  | c :: rest =>
    if c = sep then [] :: splitList sep rest
    else
      match splitList sep rest with
      | h :: t => (c :: h) :: t
      | [] => [[c]]

/-- Python s.split(sep) for a single-character separator. -/
def pySplitChar (sep : Char) (s : String) : List String :=
  (splitList sep s.data).map String.mk

/-- Split at every character satisfying a predicate (used for the
e/E separator of float exponents). -/
def splitListP (p : Char → Bool) : List Char → List (List Char)
  | [] => [[]]
  | c :: rest =>
    if p c then [] :: splitListP p rest
    else
      match splitListP p rest with
      | h :: t => (c :: h) :: t
      | [] => [[c]]

/-- Python str.find for a single character: index of the first occurrence,
none modelling the -1 result. -/
def findChar (c : Char) : List Char → Option Nat
  | [] => none
  | x :: rest => if x = c then some 0 else (findChar c rest).map (· + 1)

/-- s.startswith(c) for a single character. -/
def startsWithChar (s : String) (c : Char) : Bool :=
  match s.data with
  | x :: _ => x = c
  | [] => false

/-- Python slice s[a:b] (0 <= a <= b within bounds; clamping otherwise). -/
def strSlice (s : String) (a b : Nat) : String :=
  String.mk ((s.data.drop a).take (b - a))

/-- Python slice s[a:]. -/
def strDrop (s : String) (a : Nat) : String :=
  String.mk (s.data.drop a)

/-- Numeric value of a list of decimal digits. -/
def digitsVal (l : List Char) : Nat :=
  l.foldl (fun acc c => acc * 10 + (c.toNat - 48)) 0

/-- Leading sign of a numeric literal: (negative?, remaining characters). -/
def parseSign : List Char → Bool × List Char
  | '+' :: r => (false, r)
  | '-' :: r => (true, r)
  | r => (false, r)

/-- Python int(str): strip whitespace, optional sign, one or more decimal
digits.  (Underscore separators and non-ASCII digits are not modelled;
none of the app inputs use them.)  none models a ValueError. -/
def pyInt (s : String) : Option Int :=
  let p := parseSign (stripWs s.data)
  if p.2 ≠ [] ∧ p.2.all Char.isDigit then
    some (if p.1 then -(digitsVal p.2 : Int) else (digitsVal p.2 : Int))
  else none

/-- Mantissa of a float literal: digits, or digits.digits with at least one
digit present on one side of the dot. -/
def parseMantissa (cs : List Char) : Option Rat :=
  match splitList '.' cs with
  | [ds] =>
    if ds ≠ [] ∧ ds.all Char.isDigit then some ((digitsVal ds : Rat)) else none
  | [ip, fp] =>
    if (ip ≠ [] ∨ fp ≠ []) ∧ ip.all Char.isDigit ∧ fp.all Char.isDigit then
      some ((digitsVal ip : Rat) + (digitsVal fp : Rat) / (10 : Rat) ^ fp.length)
    else none
  | _ => none

/-- Exponent part of a float literal: optional sign and digits. -/
def parseExpPart (cs : List Char) : Option Int :=
  let p := parseSign cs
  if p.2 ≠ [] ∧ p.2.all Char.isDigit then
    some (if p.1 then -(digitsVal p.2 : Int) else (digitsVal p.2 : Int))
  else none

/-- Is this an exponent separator of a float literal? -/
def isExpChar (c : Char) : Bool := c = 'e' || c = 'E'

/-- Unsigned float literal body: mantissa with optional exponent. -/
def pyFloatCore (ds : List Char) : Option Rat :=
  match splitListP isExpChar ds with
  | [m] => parseMantissa m
  | [m, e] =>
    match parseMantissa m, parseExpPart e with
    | some q, some z => some (q * (10 : Rat) ^ z)
    | _, _ => none
  | _ => none

/-- Python float(str): strip whitespace, optional sign, then a float
literal, modelled as the exact rational value of the literal; inf/nan and
underscore separators are not modelled, and none models a ValueError.
The binary64 rounding that float() additionally applies is the identity
on every value this app meets (seconds fields of timestamps, far below
2^53); where that rounding matters - the comparison of the two
start-time conversions - it is modelled separately by floatOfNat /
floatOfInt / extractStartSecondsB64 below. -/
def pyFloat (s : String) : Option Rat :=
  let p := parseSign (stripWs s.data)
  (pyFloatCore p.2).map (fun q => if p.1 then -q else q)

/-- Number of binary digits of n (0 for 0), computed with n as fuel. -/
def bitLenAux : Nat → Nat → Nat
  | 0, _ => 0
  | fuel + 1, n => if n = 0 then 0 else bitLenAux fuel (n / 2) + 1

/-- Number of binary digits of n: 2^(bitLen n - 1) <= n < 2^(bitLen n)
for n >= 1. -/
def bitLen (n : Nat) : Nat := bitLenAux n n

/-- Round n to the nearest multiple of 2^e, ties to the even multiple. -/
def roundEvenAt (n : Nat) (e : Nat) : Nat :=
  let p := 2 ^ e
  let q := n / p
  let r := n % p
  if 2 * r < p then q * p
  else if p < 2 * r then (q + 1) * p
  else (if q % 2 = 0 then q else q + 1) * p

/-- The binary64 (IEEE 754 double) value of a natural number: round to 53
significand bits, ties to even - this is what Python float() yields on a
nonnegative integer literal and what converting a Python int to float
yields.  (Overflow to infinity above 2^1024 is not modelled; the
theorems below stay far under it.) -/
def floatOfNat (n : Nat) : Nat := roundEvenAt n (bitLen n - 53)

/-- The binary64 value of an integer (rounding is sign-symmetric). -/
def floatOfInt (z : Int) : Int :=
  if z < 0 then -(floatOfNat z.natAbs : Int) else (floatOfNat z.natAbs : Int)

/-- Index of the first occurrence of pat as a contiguous sublist. -/
def findSub (pat : List Char) : List Char → Option Nat
  | [] => if pat.isEmpty then some 0 else none
  | c :: rest =>
    if pat.isPrefixOf (c :: rest) then some 0
    else (findSub pat rest).map (· + 1)

/-! ## parse_claude_plan (src/app.py lines 448-496) -/

/-- First match of the regex pattern used by parse_claude_plan to pull a
fenced JSON block out of free text.  After the literal backtick-backtick-
backtick-json tag the greedy whitespace run is skipped, the lazy capture
runs to the first subsequent triple backtick, and the trailing greedy
whitespace run is excluded from the capture, exactly as the Python regex
engine resolves the pattern. -/
def extractJsonBlock (s : String) : Option String :=
  let cs := s.data
  match findSub ("```json".data) cs with
  | none => none
  | some p =>
    let afterTag := cs.drop (p + 7)
    let a := (afterTag.takeWhile isPyWs).length
    let rest := afterTag.drop a
    match findSub ("```".data) rest with
    | none => none
    | some c =>
      let pre := rest.take c
      let b := (pre.reverse.takeWhile isPyWs).length
      some (String.mk (pre.take (c - b)))

/-- The single-element fallback plan returned by parse_claude_plan when no
JSON can be recovered from the response text. -/
def fallbackPlan : JValue :=
  .jarr [.jobj [("type", .jstr "transition"),
                ("text", .jstr "Failed to parse plan. Please check the Claude reasoning tab for details."),
                ("duration", .jint 10)]]

/-- The branch parse_claude_plan applies to a successfully parsed JSON
value: a dict with a segments key yields that key's value, a list is
returned as-is, anything else is wrapped in a one-element list. -/
def planDispatch (v : JValue) : JValue :=
  match v with
  | .jobj fs =>
    match dictLookup fs "segments" with
    | some segs => segs
    | none => .jarr [v]
  | .jarr es => .jarr es
  | other => .jarr [other]

/-- parse_claude_plan: try json.loads on the whole text; on a decode error
extract the first fenced json block and try json.loads on it; otherwise
return the fallback transition plan.  json.loads is the parameter
jparse (none = JSONDecodeError). -/
def parse_claude_plan (jparse : String → Option JValue) (plan_text : String) : JValue :=
  match jparse plan_text with
  | some plan_data => planDispatch plan_data
  | none =>
    match extractJsonBlock plan_text with
    | some block =>
      match jparse block with
      | some json_data => planDispatch json_data
      | none => fallbackPlan
    | none => fallbackPlan

/-- The effective parse attempt of parse_claude_plan: the whole text if it
parses, else the first fenced json block if present and parsing. -/
def effParse (jparse : String → Option JValue) (text : String) : Option JValue :=
  match jparse text with
  | some v => some v
  | none =>
    match extractJsonBlock text with
    | some b => jparse b
    | none => none

/-- Is the value a Python list? -/
def isJList : JValue → Bool
  | .jarr _ => true
  | _ => false

/-! ## extract_segment_from_transcript (src/app.py lines 512-561) -/

/-- Outcome of a Python function call: a returned value, or an exception
propagating to the caller. -/
inductive PyResult (α : Type) where
  | ok (val : α) : PyResult α
  | raised : PyResult α
  deriving DecidableEq

/-- The dict returned by extract_segment_from_transcript. -/
structure SegmentExtract where
  text : String
  actual_start : Rat
  actual_end : Rat
  deriving DecidableEq

/-- Parsing of start_time_str at the top of
extract_segment_from_transcript: h:m:s split with int/int/float, or a bare
float.  none models a raised ValueError, which happens before the local
variable start_seconds is bound. -/
def parseTimeSpec (start_time_str : String) : Option Rat :=
  if start_time_str.data.contains ':' then
    match pySplitChar ':' start_time_str with
    | [h, m, s] =>
      match pyInt h, pyInt m, pyFloat s with
      | some a, some b, some c => some ((a : Rat) * 3600 + (b : Rat) * 60 + c)
      | _, _, _ => none
    | _ => none
  else pyFloat start_time_str

/-- Processing of one transcript line inside the loop of
extract_segment_from_transcript: ok none when the line does not carry a
parsed timestamp (no leading bracket, no closing bracket after position 0,
or no colon inside the brackets), ok (some (seconds, text)) for a
timestamped line, error when int()/float() or the 3-way unpacking raises. -/
def lineEntry (line : String) : Except Unit (Option (Rat × String)) :=
  if startsWithChar line '[' then
    match findChar ']' line.data with
    | none => .ok none
    | some te =>
      if te > 0 then
        let ts := strSlice line 1 te
        if ts.data.contains ':' then
          match pySplitChar ':' ts with
          | [h, m, s] =>
            match pyInt h, pyInt m, pyFloat s with
            | some a, some b, some c =>
              .ok (some ((a : Rat) * 3600 + (b : Rat) * 60 + c,
                         pyStrip (strDrop line (te + 1))))
            | _, _, _ => .error ()
          | _ => .error ()
        else .ok none
      else .ok none
  else .ok none

/-- The loop of extract_segment_from_transcript: collect (timestamp, text)
pairs of the lines whose timestamp lies in [start, end]; an exception on
any line aborts the whole collection. -/
def collectEntries (start_seconds end_seconds : Rat) :
    List String → Except Unit (List (Rat × String))
  | [] => .ok []
  | line :: rest =>
    match lineEntry line with
    | .error e => .error e
    | .ok none => collectEntries start_seconds end_seconds rest
    | .ok (some (t, txt)) =>
      if start_seconds ≤ t ∧ t ≤ end_seconds then
        (collectEntries start_seconds end_seconds rest).map (fun l => (t, txt) :: l)
      else collectEntries start_seconds end_seconds rest

/-- Python min over a nonempty list, with a default for the empty list
(the code writes min(xs) if xs else start_seconds). -/
def listMinD (dflt : Rat) : List Rat → Rat
  | [] => dflt
  | t :: ts => ts.foldl min t

/-- Python max over a nonempty list with a default. -/
def listMaxD (dflt : Rat) : List Rat → Rat
  | [] => dflt
  | t :: ts => ts.foldl max t

/-- extract_segment_from_transcript.  The whole body sits in a broad
try/except whose handler returns a sentinel dict built from the local
variables start_seconds and end_seconds; when the body raises before
start_seconds is bound (while parsing start_time_str), the handler itself
raises an unbound-local error, modelled as raised. -/
def extract_segment_from_transcript (transcript start_time_str : String)
    (duration : Rat) : PyResult SegmentExtract :=
  match parseTimeSpec start_time_str with
  | none => .raised
  | some start_seconds =>
    let end_seconds := start_seconds + duration
    match collectEntries start_seconds end_seconds (pySplitChar '\n' transcript) with
    | .error _ => .ok ⟨"", start_seconds, end_seconds⟩
    | .ok entries =>
      .ok ⟨String.intercalate " " (entries.map Prod.snd),
           listMinD start_seconds (entries.map Prod.fst),
           listMaxD end_seconds (entries.map Prod.fst)⟩

/-- The declarative inclusion rule of the transcript loop: a line
contributes exactly when it carries a parsed timestamp lying in
[s, e]; the contribution is the timestamp with the stripped text after
the closing bracket. -/
def includedEntry (s e : Rat) (line : String) : Option (Rat × String) :=
  match lineEntry line with
  | .ok (some (t, txt)) => if s ≤ t ∧ t ≤ e then some (t, txt) else none
  | _ => none

/-! ## create_trailer_segment start-time conversion (src/app.py lines 213-218) -/

/-- The start-seconds computation of create_trailer_segment: when the
start time is a string containing a colon it is split into h, m, s and
converted with int() three times; otherwise float() is applied.  none
models a raised ValueError. -/
def createStartSeconds (t : String) : Option Rat :=
  if t.data.contains ':' then
    match pySplitChar ':' t with
    | [h, m, s] =>
      match pyInt h, pyInt m, pyInt s with
      | some a, some b, some c => some (((a * 3600 + b * 60 + c : Int) : Rat))
      | _, _, _ => none
    | _ => none
  else pyFloat t

/-- The start-seconds computation of extract_segment_from_transcript
(int(h)*3600 + int(m)*60 + float(s)), refined with binary64 semantics on
a timestamp whose components are decimal integer literals:
int(h)*3600 + int(m)*60 is exact Python int arithmetic, float(s) rounds
the literal to binary64, and the final int + float addition converts the
int to binary64 and rounds the double sum once more.  (Both summands
being integers, that last rounding is floatOfInt of their exact sum.) -/
def extractStartSecondsB64 (t : String) : Option Int :=
  if t.data.contains ':' then
    match pySplitChar ':' t with
    | [h, m, s] =>
      match pyInt h, pyInt m, pyInt s with
      | some a, some b, some c =>
        some (floatOfInt (floatOfInt (a * 3600 + b * 60) + floatOfInt c))
      | _, _, _ => none
    | _ => none
  else none

/-! ## create_trailer_from_plan, effective second definition
(src/app.py lines 599-730) -/

/-- The index computation of the video branch: a positive int video_id is
decremented to a 0-based index, then clamped above by len(videos)-1; with
an empty videos list the conditional expression yields 0. -/
def clampVideoIndex (n : Nat) (z : Int) : Int :=
  let z1 := if 0 < z then z - 1 else z
  if n = 0 then 0 else min z1 ((n : Int) - 1)

/-- Python list indexing videos[idx]: nonnegative indices from the front,
negative indices from the back, none modelling an IndexError. -/
def pyListGet {V : Type} (l : List V) (idx : Int) : Option V :=
  let j := if idx < 0 then idx + (l.length : Int) else idx
  if h : 0 ≤ j ∧ j < (l.length : Int) then
    some (l.get ⟨j.toNat, by omega⟩)
  else none

/-- One iteration of the segment loop of the effective
create_trailer_from_plan.  The calls create_trailer_segment and
create_transition_slide run external media tools and are modelled by the
oracles f (receiving the loop index, the selected video and the segment)
and g (receiving the loop index and the segment); both return the produced
clip path or none, and neither propagates an exception (each has its own
broad guard returning None).  Errors of the loop body itself (attribute
errors on non-dict segments, type errors in min, index errors on the
videos list) are modelled as .error and abort the whole loop, as the
enclosing try/except of create_trailer_from_plan would. -/
def planStep {V : Type} (videos : List V)
    (f : Nat → V → JValue → Option String)
    (g : Nat → JValue → Option String) :
    Nat × JValue → Except String (Option String)
  | (i, .jobj fs) =>
    match (dictLookup fs "type").getD (.jstr "video") with
    | .jstr ty =>
      if ty = "video" then
        if videos.isEmpty then .ok none
        else
          match (dictLookup fs "video_id").getD (.jint 0) with
          | .jint z =>
            match pyListGet videos (clampVideoIndex videos.length z) with
            | some vinfo => .ok (f i vinfo (.jobj fs))
            | none => .error "list index out of range"
          | .jbool b =>
            match pyListGet videos (clampVideoIndex videos.length (if b then 1 else 0)) with
            | some vinfo => .ok (f i vinfo (.jobj fs))
            | none => .error "list index out of range"
          | .jfloat q =>
            if ((videos.length : Rat) - 1) < q then
              match pyListGet videos ((videos.length : Int) - 1) with
              | some vinfo => .ok (f i vinfo (.jobj fs))
              | none => .error "list index out of range"
            else .error "list indices must be integers or slices, not float"
          | _ => .error "unorderable types passed to min"
      else if ty = "transition" then .ok (g i (.jobj fs))
      else .ok none
    | _ => .ok none
  | (_, _) => .error "object has no attribute get"

/-- Result of one loop iteration when it neither errors nor is skipped. -/
def stepOut {V : Type} (videos : List V)
    (f : Nat → V → JValue → Option String)
    (g : Nat → JValue → Option String) (p : Nat × JValue) : Option String :=
  match planStep videos f g p with
  | .ok (some s) => some s
  | _ => none

/-- Python enumerate starting at n. -/
def pyEnum {α : Type} (n : Nat) : List α → List (Nat × α)
  | [] => []
  | a :: t => (n, a) :: pyEnum (n + 1) t

/-- The segment loop of create_trailer_from_plan: walk the enumerated
segments, appending each produced clip path to the accumulator. -/
def buildPaths {V : Type} (videos : List V)
    (f : Nat → V → JValue → Option String)
    (g : Nat → JValue → Option String) :
    List (Nat × JValue) → List String → Except String (List String)
  | [], acc => .ok acc
  | p :: rest, acc =>
    match planStep videos f g p with
    | .error e => .error e
    | .ok none => buildPaths videos f g rest acc
    | .ok (some path) => buildPaths videos f g rest (acc ++ [path])

/-- The ordered clip-path list assembled by the effective
create_trailer_from_plan for a parsed segment list. -/
def createTrailerPaths {V : Type} (videos : List V)
    (f : Nat → V → JValue → Option String)
    (g : Nat → JValue → Option String) (segments : List JValue) :
    Except String (List String) :=
  buildPaths videos f g (pyEnum 0 segments) []

/-! ## generate_trailer_plan (src/app.py lines 101-202) and
analyze_video_content (src/app.py lines 860-963) -/

/-- World of one guarded API call: an exception before the HTTP request is
issued (e.g. a missing secret), an exception from requests.post itself, or
a response with status code, text and a body (response.json(), whose
failure carries the exception message). -/
inductive ApiWorld where
  | preRaise (msg : String) : ApiWorld
  | postRaise (msg : String) : ApiWorld
  | respond (status : Int) (rtext : String) (body : Except String JValue) : ApiWorld

/-- Number of HTTP requests the guarded call issues in a given world. -/
def requestCount : ApiWorld → Nat
  | .preRaise _ => 0
  | _ => 1

/-- The sentinel first component returned by generate_trailer_plan on any
failure. -/
def genFail : String := "Failed to generate trailer plan"

/-- The content extraction of generate_trailer_plan:
response_json.get('content', [dict()])[0].get('text', str(response_json)).
strFn models Python str() on the parsed body (only reached when the first
element has no text key).  .error models an exception of the chain or the
later .split on a non-string value. -/
def getContent (strFn : JValue → String) (rj : JValue) : Except String String :=
  match rj with
  | .jobj fs =>
    match (dictLookup fs "content").getD (.jarr [.jobj []]) with
    | .jarr [] => .error "list index out of range"
    | .jarr (x :: _) =>
      match x with
      | .jobj gs =>
        match dictLookup gs "text" with
        | some (.jstr t) => .ok t
        | some _ => .error "object has no attribute split"
        | none => .ok (strFn rj)
      | _ => .error "object has no attribute get"
    | .jstr s =>
      .error (if s.length = 0 then "string index out of range"
              else "object has no attribute get")
    | .jobj _ => .error "KeyError: 0"
    | _ => .error "object is not subscriptable"
  | _ => .error "object has no attribute get"

/-- generate_trailer_plan: one requests.post to the messages endpoint, a
status check, content extraction, then the PART 2 split into
(plan, reasoning).  Every failure path returns the sentinel pair instead
of raising. -/
def generate_trailer_plan (strFn : JValue → String) (w : ApiWorld) :
    String × String :=
  match w with
  | .preRaise m => (genFail, "Error: " ++ m)
  | .postRaise m => (genFail, "Error: " ++ m)
  | .respond status _ body =>
    if status ≠ 200 then
      (genFail, "Error: API call failed with status code " ++ toString status)
    else
      match body with
      | .error m => (genFail, "Error: " ++ m)
      | .ok rj =>
        match getContent strFn rj with
        | .error m => (genFail, "Error: " ++ m)
        | .ok content =>
          match content.splitOn "PART 2:" with
          | p0 :: p1 :: _ => (pyStrip p1, pyStrip (p0.replace "PART 1:" ""))
          | _ => (content, "Claude's reasoning could not be separated from the plan.")

/-- The five-key error dict of analyze_video_content (returned on a bad
status code and from the broad exception guard). -/
def errAnalysis : JValue :=
  .jobj [("speaker_type", .jstr "unknown"),
         ("main_message", .jstr "Error analyzing content"),
         ("petition_relevance", .jstr "unknown"),
         ("demographic_notes", .jstr "unknown"),
         ("content_type", .jstr "unknown")]

/-- The five-key default dict of analyze_video_content (returned when the
response lacks usable choices or the content is not valid JSON). -/
def defaultAnalysis : JValue :=
  .jobj [("speaker_type", .jstr "unknown"),
         ("main_message", .jstr "Video analysis unavailable"),
         ("petition_relevance", .jstr "unknown"),
         ("demographic_notes", .jstr "unknown"),
         ("content_type", .jstr "unknown")]

/-- Python len() on a JSON value; none models a TypeError. -/
def pyLen : JValue → Option Nat
  | .jarr xs => some xs.length
  | .jstr s => some s.length
  | .jobj fs => some fs.length
  | _ => none

/-- The Python test "choices" in response_json: key membership for a dict,
element membership for a list (a string only ever equals a string),
substring test for a string, TypeError otherwise. -/
def containsChoices : JValue → Except String Bool
  | .jobj fs => .ok (fs.any (fun p => p.1 == "choices"))
  | .jarr xs =>
    .ok (xs.any (fun x => match x with | .jstr s => s == "choices" | _ => false))
  | .jstr s => .ok ((findSub ("choices".data) s.data).isSome)
  | _ => .error "argument is not iterable"

/-- The choices/content extraction of analyze_video_content: ok none when
the choices guard fails (fall through to the default dict), ok (some c)
with the content value, .error when the chain raises. -/
def extractChoiceContent (body : JValue) : Except String (Option JValue) :=
  match containsChoices body with
  | .error m => .error m
  | .ok false => .ok none
  | .ok true =>
    match body with
    | .jobj fs =>
      match dictLookup fs "choices" with
      | none => .error "KeyError: choices"
      | some v =>
        match pyLen v with
        | none => .error "object has no len"
        | some n =>
          if n > 0 then
            match v with
            | .jarr (x :: _) =>
              match x with
              | .jobj gs =>
                match dictLookup gs "message" with
                | some (.jobj hs) =>
                  match dictLookup hs "content" with
                  | some c => .ok (some c)
                  | none => .error "KeyError: content"
                | some _ => .error "object is not subscriptable"
                | none => .error "KeyError: message"
              | _ => .error "object is not subscriptable"
            | .jstr _ => .error "string indices must be integers"
            | .jobj _ => .error "KeyError: 0"
            | _ => .error "unreachable"
          else .ok none
    | _ => .error "object is not subscriptable"

/-- analyze_video_content: a broad guard around the whole body, a status
check, the choices/content extraction, then json.loads (the jparse
parameter) on the content; a successfully parsed content is returned
as-is, every error path yields one of the two five-key fallback dicts. -/
def analyze_video_content (jparse : String → Option JValue) (w : ApiWorld) :
    JValue :=
  match w with
  | .preRaise _ => errAnalysis
  | .postRaise _ => errAnalysis
  | .respond status _ body =>
    if status ≠ 200 then errAnalysis
    else
      match body with
      | .error _ => errAnalysis
      | .ok b =>
        match extractChoiceContent b with
        | .error _ => errAnalysis
        | .ok none => defaultAnalysis
        | .ok (some (.jstr c)) =>
          match jparse c with
          | some v => v
          | none => defaultAnalysis
        | .ok (some _) => errAnalysis

/-- The five keys every analysis dict is meant to carry. -/
def analysisKeys : List String :=
  ["speaker_type", "main_message", "petition_relevance",
   "demographic_notes", "content_type"]

/-- Does a value carry all five analysis keys (and is it a dict at all)? -/
def hasAllAnalysisKeys : JValue → Bool
  | .jobj fs => analysisKeys.all (fun k => fs.any (fun p => p.1 == k))
  | _ => false

/-- The speaker_type entry of an analysis value. -/
def speakerTypeOf : JValue → Option JValue
  | .jobj fs => dictLookup fs "speaker_type"
  | _ => none

/-! ## Concrete instances used to exhibit behaviours -/

/-- json.loads restricted to the empty domain: every input raises a
JSONDecodeError (as json.loads does on non-JSON text such as "hello"). -/
def jparseNone : String → Option JValue := fun _ => none

/-- json.loads on the single document with a non-list segments value:
Python json.loads of the text yields the dict with key segments and
integer value 5. -/
def jparseSeg5 : String → Option JValue := fun s =>
  if s = "\x7b\"segments\": 5\x7d" then some (.jobj [("segments", .jint 5)])
  else none

/-- json.loads succeeding only on the fenced block body with a segments
array, mirroring a reply whose prose around the block is not JSON. -/
def jparseBlock : String → Option JValue := fun s =>
  if s = "\x7b\"segments\": [1]\x7d" then
    some (.jobj [("segments", .jarr [.jint 1])])
  else none

/-- json.loads on the empty JSON object document. -/
def jparseEmptyObj : String → Option JValue := fun s =>
  if s = "\x7b\x7d" then some (.jobj []) else none

/-- A trivial model of Python str() for worlds whose runs never reach the
default branch of the content extraction. -/
def strFnTrivial : JValue → String := fun _ => ""

/-- A chat-completions body whose first choice carries the empty JSON
object as its message content. -/
def bodyEmptyContent : JValue :=
  .jobj [("choices",
          .jarr [.jobj [("message", .jobj [("content", .jstr "\x7b\x7d")])]])]

/-- A concrete clip-creation oracle whose produced path embeds the loop
index, as segment_i.mp4 does in the app. -/
def fWitness : Nat → Unit → JValue → Option String :=
  fun i _ _ => some (String.mk (List.replicate (i + 1) 'a'))

/-- A concrete transition-slide oracle whose produced path embeds the
loop index, as transition_i.mp4 does in the app. -/
def gWitness : Nat → JValue → Option String :=
  fun i _ => some (String.mk (List.replicate (i + 1) 'b'))

/-- A two-segment plan: one video segment and one transition. -/
def segsWitness : List JValue :=
  [.jobj [("type", .jstr "video"), ("video_id", .jint 1)],
   .jobj [("type", .jstr "transition")]]

end SupporterVideo

namespace SupporterVideo

/-! ## Helper lemmas -/

theorem splitList_all_ne (sep : Char) :
    ∀ l : List Char, (∀ c ∈ l, c ≠ sep) → splitList sep l = [l]
  | [], _ => rfl
  | c :: rest, h => by
    have hc : c ≠ sep := h c (List.mem_cons_self c rest)
    have ih := splitList_all_ne sep rest (fun x hx => h x (List.mem_cons_of_mem c hx))
    simp [splitList, hc, ih]

theorem splitListP_all_false (p : Char → Bool) :
    ∀ l : List Char, (∀ c ∈ l, p c = false) → splitListP p l = [l]
  | [], _ => rfl
  | c :: rest, h => by
    have hc : p c = false := h c (List.mem_cons_self c rest)
    have ih := splitListP_all_false p rest (fun x hx => h x (List.mem_cons_of_mem c hx))
    simp [splitListP, hc, ih]

theorem isExpChar_eq_false_of_isDigit (c : Char) (h : c.isDigit = true) :
    isExpChar c = false := by
  rcases Decidable.em (c = 'e') with rfl | h1
  · exact absurd h (by decide)
  rcases Decidable.em (c = 'E') with rfl | h2
  · exact absurd h (by decide)
  simp [isExpChar, h1, h2]

theorem ne_dot_of_isDigit (c : Char) (h : c.isDigit = true) : c ≠ '.' := by
  rintro rfl
  exact absurd h (by decide)

/-- A string accepted by Python int() is accepted by Python float() with
the same numeric value: this is the bridge between the two start-time
conversions of the app. -/
theorem pyInt_pyFloat (s : String) (z : Int) (h : pyInt s = some z) :
    pyFloat s = some ((z : Rat)) := by
  simp only [pyInt] at h
  simp only [pyFloat]
  rcases hps : parseSign (stripWs s.data) with ⟨neg, ds⟩
  simp only at h ⊢
  split at h
  case isFalse => exact absurd h (by simp)
  case isTrue hcond =>
    rw [hps] at hcond h
    simp only at hcond h
    obtain ⟨hne, hdig⟩ := hcond
    have hmem : ∀ c ∈ ds, c.isDigit = true := fun c hc => List.all_eq_true.mp hdig c hc
    have hsplitP : splitListP isExpChar ds = [ds] :=
      splitListP_all_false _ _ (fun c hc => isExpChar_eq_false_of_isDigit c (hmem c hc))
    have hsplitD : splitList '.' ds = [ds] :=
      splitList_all_ne '.' ds (fun c hc => ne_dot_of_isDigit c (hmem c hc))
    simp only [pyFloatCore, hsplitP, parseMantissa, hsplitD, hne, hdig,
      ne_eq, not_false_iff, true_and, if_true, Option.map_some]
    injection h with hz
    subst hz
    cases neg <;> simp

/-! ## Claim theorems -/

theorem bitLenAux_le : ∀ (fuel n b : Nat), n < 2 ^ b → bitLenAux fuel n ≤ b
  | 0, _, _, _ => Nat.zero_le _
  | fuel + 1, n, b, h => by
    rw [bitLenAux]
    split
    · exact Nat.zero_le _
    · rename_i hn
      cases b with
      | zero =>
        rw [pow_zero] at h
        omega
      | succ b' =>
        have h2 : n / 2 < 2 ^ b' := by
          rw [pow_succ] at h
          omega
        have ih := bitLenAux_le fuel (n / 2) b' h2
        omega

/-- Binary64 rounding is the identity below 2^53: every natural number
with at most 53 binary digits is exactly representable. -/
theorem floatOfNat_small (n : Nat) (h : n < 9007199254740992) :
    floatOfNat n = n := by
  have h53 : (2 : Nat) ^ 53 = 9007199254740992 := by norm_num
  have hb : bitLen n ≤ 53 := bitLenAux_le n n 53 (by omega)
  unfold floatOfNat
  have he : bitLen n - 53 = 0 := by omega
  rw [he]
  simp [roundEvenAt, Nat.mod_one]

/-- Binary64 rounding is the identity on nonnegative integers below
2^53. -/
theorem floatOfInt_small (z : Int) (h0 : 0 ≤ z)
    (h : z < 9007199254740992) : floatOfInt z = z := by
  unfold floatOfInt
  rw [if_neg (by omega : ¬ z < 0)]
  rw [floatOfNat_small z.natAbs (by omega)]
  omega

/-- Counterexample to claim C8 as stated: at the timestamp
0:0:9007199254740993 (seconds component 2^53 + 1, a decimal integer
literal), create_trailer_segment computes the exact integer
9007199254740993, while extract_segment_from_transcript computes
float("9007199254740993") = 9007199254740992.0 under binary64
round-to-nearest-even, and Python's exact int/float comparison makes
the two unequal. -/
theorem timestamp_conversions_disagree_large :
    createStartSeconds "0:0:9007199254740993" =
      some (((9007199254740993 : Int) : Rat)) ∧
    extractStartSecondsB64 "0:0:9007199254740993" =
      some 9007199254740992 ∧
    (9007199254740993 : Int) ≠ 9007199254740992 := by
  refine ⟨?_, ?_, by decide⟩
  · with_unfolding_all rfl
  · with_unfolding_all rfl

/-- Claim C8 (amended): the two timestamp-to-seconds conversions agree
on every H:MM:SS timestamp whose three colon-separated components are
nonnegative decimal integer literals with total seconds below 2^53 -
which covers every realistic timestamp - because binary64 float() is
exact there; at and beyond 2^53 float() rounds and the conversions can
disagree. -/
theorem timestamp_conversions_agree_bounded (t h m s : String)
    (a b c : Int)
    (hcol : t.data.contains ':' = true)
    (hsplit : pySplitChar ':' t = [h, m, s])
    (ha : pyInt h = some a) (hb : pyInt m = some b) (hc : pyInt s = some c)
    (ha0 : 0 ≤ a) (hb0 : 0 ≤ b) (hc0 : 0 ≤ c)
    (hbound : a * 3600 + b * 60 + c < 2 ^ 53) :
    createStartSeconds t = some (((a * 3600 + b * 60 + c : Int) : Rat)) ∧
    extractStartSecondsB64 t = some (a * 3600 + b * 60 + c) ∧
    parseTimeSpec t = some (((a * 3600 + b * 60 + c : Int) : Rat)) := by
  have h53 : (2 : Int) ^ 53 = 9007199254740992 := by norm_num
  rw [h53] at hbound
  refine ⟨?_, ?_, ?_⟩
  · unfold createStartSeconds
    rw [if_pos hcol, hsplit]
    simp only [ha, hb, hc]
  · unfold extractStartSecondsB64
    rw [if_pos hcol, hsplit]
    simp only [ha, hb, hc]
    rw [floatOfInt_small c hc0 (by omega),
        floatOfInt_small (a * 3600 + b * 60) (by omega) (by omega),
        floatOfInt_small (a * 3600 + b * 60 + c) (by omega) (by omega)]
  · have hcf := pyInt_pyFloat s c hc
    unfold parseTimeSpec
    rw [if_pos hcol, hsplit]
    simp only [ha, hb, hcf, Option.some.injEq]
    push_cast
    ring

/-- Concrete instance of amended claim C8 at the timestamp 0:01:24. -/
theorem timestamp_conversions_agree_bounded_witness :
    createStartSeconds "0:01:24" =
      some (((0 * 3600 + 1 * 60 + 24 : Int) : Rat)) ∧
    extractStartSecondsB64 "0:01:24" = some (0 * 3600 + 1 * 60 + 24) ∧
    parseTimeSpec "0:01:24" =
      some (((0 * 3600 + 1 * 60 + 24 : Int) : Rat)) :=
  timestamp_conversions_agree_bounded "0:01:24" "0" "01" "24" 0 1 24
    (by rfl) (by rfl) (by rfl) (by rfl) (by rfl)
    (by decide) (by decide) (by decide) (by decide)

/-- Case analysis on the value a parsed plan dispatches to: either the
result is a list, or the value was a dict whose segments key holds the
(arbitrary) result. -/
theorem planDispatch_cases (v : JValue) :
    isJList (planDispatch v) = true ∨
    ∃ fs, v = .jobj fs ∧ dictLookup fs "segments" = some (planDispatch v) := by
  cases v with
  | jobj fs =>
    cases hseg : dictLookup fs "segments" with
    | none => left; simp [planDispatch, hseg, isJList]
    | some segs => right; exact ⟨fs, rfl, by simp [planDispatch, hseg]⟩
  | jarr es => left; rfl
  | jnull => left; rfl
  | jbool b => left; rfl
  | jint n => left; rfl
  | jfloat q => left; rfl
  | jstr s => left; rfl

/-- A parsed value that is neither a list nor a dict with a segments key
is wrapped in a one-element list. -/
theorem planDispatch_other (v : JValue)
    (hobj : ∀ fs, v = .jobj fs → dictLookup fs "segments" = none)
    (harr : ∀ es, v ≠ .jarr es) : planDispatch v = .jarr [v] := by
  cases v with
  | jobj fs => have h := hobj fs rfl; simp [planDispatch, h]
  | jarr es => exact absurd rfl (harr es)
  | jnull => rfl
  | jbool b => rfl
  | jint n => rfl
  | jfloat q => rfl
  | jstr s => rfl

/-- Claim C1 (amended): parse_claude_plan never propagates an exception
(the embedding is total) and returns a list, except that when the
effective parse yields a dict with a segments key the raw value of that
key is returned, list or not; and whenever neither the whole text nor a
fenced json block parses, the single-element transition/duration-10
fallback is returned. -/
theorem parse_claude_plan_amended (jparse : String → Option JValue)
    (text : String) :
    (effParse jparse text = none →
      parse_claude_plan jparse text = fallbackPlan) ∧
    (isJList (parse_claude_plan jparse text) = true ∨
      ∃ fs, effParse jparse text = some (.jobj fs) ∧
        dictLookup fs "segments" = some (parse_claude_plan jparse text)) := by
  cases hj : jparse text with
  | some v =>
    have hp : parse_claude_plan jparse text = planDispatch v := by
      simp [parse_claude_plan, hj]
    have he : effParse jparse text = some v := by simp [effParse, hj]
    refine ⟨fun hnone => ?_, ?_⟩
    · rw [he] at hnone; cases hnone
    · rw [hp, he]
      rcases planDispatch_cases v with h1 | ⟨fs, rfl, h2⟩
      · exact Or.inl h1
      · exact Or.inr ⟨fs, rfl, h2⟩
  | none =>
    cases hb : extractJsonBlock text with
    | none =>
      have hp : parse_claude_plan jparse text = fallbackPlan := by
        simp [parse_claude_plan, hj, hb]
      exact ⟨fun _ => hp, Or.inl (by rw [hp]; rfl)⟩
    | some b =>
      cases hjb : jparse b with
      | none =>
        have hp : parse_claude_plan jparse text = fallbackPlan := by
          simp [parse_claude_plan, hj, hb, hjb]
        exact ⟨fun _ => hp, Or.inl (by rw [hp]; rfl)⟩
      | some v =>
        have hp : parse_claude_plan jparse text = planDispatch v := by
          simp [parse_claude_plan, hj, hb, hjb]
        have he : effParse jparse text = some v := by
          simp [effParse, hj, hb, hjb]
        refine ⟨fun hnone => ?_, ?_⟩
        · rw [he] at hnone; cases hnone
        · rw [hp, he]
          rcases planDispatch_cases v with h1 | ⟨fs, rfl, h2⟩
          · exact Or.inl h1
          · exact Or.inr ⟨fs, rfl, h2⟩

/-- Concrete instance of the fallback part of claim C1: on non-JSON text
with no fenced block, the transition/duration-10 fallback is returned. -/
theorem parse_claude_plan_amended_witness :
    parse_claude_plan jparseNone "hello" = fallbackPlan :=
  (parse_claude_plan_amended jparseNone "hello").1 rfl

/-- Counterexample to claim C1 as stated: on the JSON document whose
segments key holds the integer 5 (json.loads succeeds with a dict), the
function returns that integer, which is not a list. -/
theorem parse_claude_plan_not_always_list :
    parse_claude_plan jparseSeg5 "\x7b\"segments\": 5\x7d" = .jint 5 ∧
    isJList (.jint 5) = false :=
  ⟨rfl, rfl⟩

/-- Claim C2: the three dispatch rules of parse_claude_plan, applied to
the whole text when it parses as JSON, and otherwise to the contents of
the first fenced json block when that parses: a dict with a segments key
yields exactly that key's value, a list is returned unchanged, and any
other JSON value is wrapped in a one-element list. -/
theorem parse_claude_plan_dispatch (jparse : String → Option JValue)
    (text : String) :
    (∀ fs v, jparse text = some (.jobj fs) →
        dictLookup fs "segments" = some v →
        parse_claude_plan jparse text = v) ∧
    (∀ es, jparse text = some (.jarr es) →
        parse_claude_plan jparse text = .jarr es) ∧
    (∀ v, jparse text = some v →
        (∀ fs, v = .jobj fs → dictLookup fs "segments" = none) →
        (∀ es, v ≠ .jarr es) →
        parse_claude_plan jparse text = .jarr [v]) ∧
    (∀ b fs v, jparse text = none → extractJsonBlock text = some b →
        jparse b = some (.jobj fs) → dictLookup fs "segments" = some v →
        parse_claude_plan jparse text = v) ∧
    (∀ b es, jparse text = none → extractJsonBlock text = some b →
        jparse b = some (.jarr es) →
        parse_claude_plan jparse text = .jarr es) ∧
    (∀ b v, jparse text = none → extractJsonBlock text = some b →
        jparse b = some v →
        (∀ fs, v = .jobj fs → dictLookup fs "segments" = none) →
        (∀ es, v ≠ .jarr es) →
        parse_claude_plan jparse text = .jarr [v]) := by
  refine ⟨?_, ?_, ?_, ?_, ?_, ?_⟩
  · intro fs v hj hseg
    simp [parse_claude_plan, hj, planDispatch, hseg]
  · intro es hj
    simp [parse_claude_plan, hj, planDispatch]
  · intro v hj hobj harr
    simp [parse_claude_plan, hj, planDispatch_other v hobj harr]
  · intro b fs v hj hb hjb hseg
    simp [parse_claude_plan, hj, hb, hjb, planDispatch, hseg]
  · intro b es hj hb hjb
    simp [parse_claude_plan, hj, hb, hjb, planDispatch]
  · intro b v hj hb hjb hobj harr
    simp [parse_claude_plan, hj, hb, hjb, planDispatch_other v hobj harr]

/-- Concrete instance of claim C2: prose around a fenced json block whose
body is a dict with a segments array; the array is returned. -/
theorem parse_claude_plan_dispatch_witness :
    parse_claude_plan jparseBlock "blah\n```json\n\x7b\"segments\": [1]\x7d\n```" =
      .jarr [.jint 1] :=
  (parse_claude_plan_dispatch jparseBlock
      "blah\n```json\n\x7b\"segments\": [1]\x7d\n```").2.2.2.1
    "\x7b\"segments\": [1]\x7d" [("segments", .jarr [.jint 1])] (.jarr [.jint 1])
    rfl rfl rfl rfl

/-- Claim C3 (code bug): when the body of extract_segment_from_transcript
raises while parsing start_time_str - here "1:2", whose 3-way unpacking
raises a ValueError - the broad except handler reads the never-bound
local start_seconds and itself raises, so the sentinel dict is not
returned and an exception propagates. -/
theorem extract_segment_handler_raises :
    extract_segment_from_transcript "" "1:2" 10 = .raised := rfl

/-- Claim C4: generate_trailer_plan issues at most one HTTP request and
never retries; a non-200 status yields the sentinel pair naming the
status code, and an exception raised before, by, or after the request
yields the sentinel pair carrying the exception message, with nothing
propagated. -/
theorem generate_trailer_plan_guarded (strFn : JValue → String)
    (w : ApiWorld) :
    requestCount w ≤ 1 ∧
    (∀ s t b, w = .respond s t b → s ≠ 200 →
        generate_trailer_plan strFn w =
          (genFail, "Error: API call failed with status code " ++ toString s)) ∧
    (∀ m, w = .preRaise m →
        generate_trailer_plan strFn w = (genFail, "Error: " ++ m)) ∧
    (∀ m, w = .postRaise m →
        generate_trailer_plan strFn w = (genFail, "Error: " ++ m)) ∧
    (∀ s t m, w = .respond s t (.error m) → s = 200 →
        generate_trailer_plan strFn w = (genFail, "Error: " ++ m)) := by
  refine ⟨?_, ?_, ?_, ?_, ?_⟩
  · cases w <;> simp [requestCount]
  · rintro s t b rfl hs
    simp [generate_trailer_plan, hs]
  · rintro m rfl; rfl
  · rintro m rfl; rfl
  · rintro s t m rfl rfl
    simp [generate_trailer_plan]

/-- Concrete instance of claim C4 at a 404 response. -/
theorem generate_trailer_plan_guarded_witness :
    generate_trailer_plan strFnTrivial (.respond 404 "" (.ok .jnull)) =
      (genFail, "Error: API call failed with status code " ++ toString (404 : Int)) :=
  (generate_trailer_plan_guarded strFnTrivial
      (.respond 404 "" (.ok .jnull))).2.1 404 "" (.ok .jnull) rfl (by decide)

/-- Claim C6 (amended): analyze_video_content never propagates an
exception; on every error path it returns one of the two five-key
fallback dicts (both with speaker_type unknown), and on the success path
it returns the model's parsed JSON content unchanged - which need not be
a dict with the five keys. -/
theorem analyze_video_content_amended (jparse : String → Option JValue)
    (w : ApiWorld) :
    (analyze_video_content jparse w = errAnalysis ∨
     analyze_video_content jparse w = defaultAnalysis ∨
     ∃ s t b c, w = .respond s t (.ok b) ∧ s = 200 ∧
       extractChoiceContent b = .ok (some (.jstr c)) ∧
       jparse c = some (analyze_video_content jparse w)) ∧
    hasAllAnalysisKeys errAnalysis = true ∧
    hasAllAnalysisKeys defaultAnalysis = true ∧
    speakerTypeOf errAnalysis = some (.jstr "unknown") ∧
    speakerTypeOf defaultAnalysis = some (.jstr "unknown") := by
  refine ⟨?_, by rfl, by rfl, by rfl, by rfl⟩
  cases w with
  | preRaise m => exact Or.inl rfl
  | postRaise m => exact Or.inl rfl
  | respond s t b =>
    by_cases hs : s = 200
    · subst hs
      cases b with
      | error m => exact Or.inl (by simp [analyze_video_content])
      | ok bb =>
        cases hec : extractChoiceContent bb with
        | error m =>
          exact Or.inl (by simp [analyze_video_content, hec])
        | ok oc =>
          cases oc with
          | none =>
            exact Or.inr (Or.inl (by simp [analyze_video_content, hec]))
          | some c =>
            cases c with
            | jstr str =>
              cases hjp : jparse str with
              | none =>
                exact Or.inr (Or.inl
                  (by simp [analyze_video_content, hec, hjp]))
              | some v =>
                refine Or.inr (Or.inr ⟨200, t, bb, str, rfl, rfl, hec, ?_⟩)
                have hv : analyze_video_content jparse
                    (.respond 200 t (.ok bb)) = v := by
                  simp [analyze_video_content, hec, hjp]
                rw [hv]
                exact hjp
            | jnull => exact Or.inl (by simp [analyze_video_content, hec])
            | jbool x => exact Or.inl (by simp [analyze_video_content, hec])
            | jint x => exact Or.inl (by simp [analyze_video_content, hec])
            | jfloat x => exact Or.inl (by simp [analyze_video_content, hec])
            | jarr x => exact Or.inl (by simp [analyze_video_content, hec])
            | jobj x => exact Or.inl (by simp [analyze_video_content, hec])
    · exact Or.inl (by simp [analyze_video_content, hs])

/-- Counterexample to claim C6 as stated: a 200 response whose first
choice carries the empty JSON object as content makes the function
return the empty dict, which lacks all five keys. -/
theorem analyze_video_content_missing_keys :
    analyze_video_content jparseEmptyObj
        (.respond 200 "" (.ok bodyEmptyContent)) = .jobj [] ∧
    hasAllAnalysisKeys (.jobj []) = false :=
  ⟨rfl, rfl⟩

/-- A successful run of the transcript loop collects exactly the
filter-map of the declarative inclusion rule over the lines, in line
order. -/
theorem collectEntries_ok (s e : Rat) :
    ∀ (ls : List String) (entries : List (Rat × String)),
      collectEntries s e ls = .ok entries →
      entries = ls.filterMap (includedEntry s e)
  | [], entries, h => by
    simpa [collectEntries] using h.symm
  | line :: rest, entries, h => by
    rw [collectEntries] at h
    cases hle : lineEntry line with
    | error u => rw [hle] at h; cases h
    | ok oc =>
      rw [hle] at h
      cases oc with
      | none =>
        have ih := collectEntries_ok s e rest entries h
        simp [List.filterMap_cons, includedEntry, hle, ih]
      | some p =>
        obtain ⟨t, txt⟩ := p
        dsimp only at h
        by_cases hin : s ≤ t ∧ t ≤ e
        · rw [if_pos hin] at h
          cases hcr : collectEntries s e rest with
          | error u => rw [hcr] at h; cases h
          | ok l =>
            rw [hcr] at h
            have he : entries = (t, txt) :: l := (Except.ok.inj h).symm
            have ih := collectEntries_ok s e rest l hcr
            simp [he, List.filterMap_cons, includedEntry, hle, hin, ih]
        · rw [if_neg hin] at h
          have ih := collectEntries_ok s e rest entries h
          simp [List.filterMap_cons, includedEntry, hle, hin, ih]

theorem foldlMin_le_init : ∀ (ts : List Rat) (t : Rat), ts.foldl min t ≤ t
  | [], _ => le_refl _
  | a :: ts, t =>
    le_trans (foldlMin_le_init ts (min t a)) (min_le_left t a)

theorem foldlMin_le_mem :
    ∀ (ts : List Rat) (t x : Rat), x ∈ ts → ts.foldl min t ≤ x
  | a :: ts, t, x, hx => by
    rcases List.mem_cons.mp hx with rfl | hx
    · exact le_trans (foldlMin_le_init ts (min t x)) (min_le_right t x)
    · exact foldlMin_le_mem ts (min t a) x hx

theorem foldlMin_mem :
    ∀ (ts : List Rat) (t : Rat), ts.foldl min t = t ∨ ts.foldl min t ∈ ts
  | [], t => Or.inl rfl
  | a :: ts, t => by
    rcases foldlMin_mem ts (min t a) with h | h
    · rcases min_choice t a with hc | hc
      · exact Or.inl (by rw [List.foldl_cons, h, hc])
      · exact Or.inr (by rw [List.foldl_cons, h, hc]; exact List.mem_cons_self a ts)
    · exact Or.inr (List.mem_cons_of_mem a h)

theorem foldlMax_le_init : ∀ (ts : List Rat) (t : Rat), t ≤ ts.foldl max t
  | [], _ => le_refl _
  | a :: ts, t =>
    le_trans (le_max_left t a) (foldlMax_le_init ts (max t a))

theorem foldlMax_le_mem :
    ∀ (ts : List Rat) (t x : Rat), x ∈ ts → x ≤ ts.foldl max t
  | a :: ts, t, x, hx => by
    rcases List.mem_cons.mp hx with rfl | hx
    · exact le_trans (le_max_right t x) (foldlMax_le_init ts (max t x))
    · exact foldlMax_le_mem ts (max t a) x hx

theorem foldlMax_mem :
    ∀ (ts : List Rat) (t : Rat), ts.foldl max t = t ∨ ts.foldl max t ∈ ts
  | [], t => Or.inl rfl
  | a :: ts, t => by
    rcases foldlMax_mem ts (max t a) with h | h
    · rcases max_choice t a with hc | hc
      · exact Or.inl (by rw [List.foldl_cons, h, hc])
      · exact Or.inr (by rw [List.foldl_cons, h, hc]; exact List.mem_cons_self a ts)
    · exact Or.inr (List.mem_cons_of_mem a h)

/-- Claim C9: on a non-raising run, extract_segment_from_transcript
includes a line exactly when the declarative inclusion rule admits it
(leading bracket, closing bracket after position 0, colon inside, 3-way
h:m:s split, value within [start, start+d]); the text is the
space-separated join of the included lines in original order, and
actual_start / actual_end are the minimum / maximum included timestamp,
defaulting to start and start+d when no line matches. -/
theorem extract_segment_spec (transcript start_time_str : String)
    (d start : Rat) (entries : List (Rat × String))
    (h1 : parseTimeSpec start_time_str = some start)
    (h2 : collectEntries start (start + d) (pySplitChar '\n' transcript) =
      .ok entries) :
    extract_segment_from_transcript transcript start_time_str d =
      .ok ⟨String.intercalate " " (entries.map Prod.snd),
           listMinD start (entries.map Prod.fst),
           listMaxD (start + d) (entries.map Prod.fst)⟩ ∧
    entries =
      (pySplitChar '\n' transcript).filterMap (includedEntry start (start + d)) ∧
    (∀ p ∈ entries,
        listMinD start (entries.map Prod.fst) ≤ p.1 ∧
        p.1 ≤ listMaxD (start + d) (entries.map Prod.fst)) ∧
    (entries ≠ [] →
        listMinD start (entries.map Prod.fst) ∈ entries.map Prod.fst ∧
        listMaxD (start + d) (entries.map Prod.fst) ∈ entries.map Prod.fst) ∧
    (entries = [] →
        listMinD start (entries.map Prod.fst) = start ∧
        listMaxD (start + d) (entries.map Prod.fst) = start + d) := by
  refine ⟨?_, collectEntries_ok _ _ _ _ h2, ?_, ?_, ?_⟩
  · unfold extract_segment_from_transcript
    rw [h1]
    simp only
    rw [h2]
  · intro p hp
    cases hl : entries.map Prod.fst with
    | nil =>
      have he : entries = [] := List.map_eq_nil_iff.mp hl
      rw [he] at hp
      cases hp
    | cons t ts =>
      have hmem : p.1 ∈ entries.map Prod.fst := List.mem_map_of_mem Prod.fst hp
      rw [hl] at hmem
      constructor
      · show List.foldl min t ts ≤ p.1
        rcases List.mem_cons.mp hmem with heq | hmem'
        · rw [heq]; exact foldlMin_le_init ts t
        · exact foldlMin_le_mem ts t p.1 hmem'
      · show p.1 ≤ List.foldl max t ts
        rcases List.mem_cons.mp hmem with heq | hmem'
        · rw [heq]; exact foldlMax_le_init ts t
        · exact foldlMax_le_mem ts t p.1 hmem'
  · intro hne
    cases hl : entries.map Prod.fst with
    | nil => exact absurd (List.map_eq_nil_iff.mp hl) hne
    | cons t ts =>
      constructor
      · show List.foldl min t ts ∈ t :: ts
        rcases foldlMin_mem ts t with h | h
        · rw [h]; exact List.mem_cons_self t ts
        · exact List.mem_cons_of_mem t h
      · show List.foldl max t ts ∈ t :: ts
        rcases foldlMax_mem ts t with h | h
        · rw [h]; exact List.mem_cons_self t ts
        · exact List.mem_cons_of_mem t h
  · intro he
    subst he
    exact ⟨rfl, rfl⟩

/-- Concrete instance of claim C9: a two-line transcript of which only
the first line falls in the window. -/
theorem extract_segment_spec_witness :
    extract_segment_from_transcript "[0:00:01] hello\n[0:00:20] bye"
        "0:00:00" 10 =
      .ok ⟨String.intercalate " " ([((1 : Rat), "hello")].map Prod.snd),
           listMinD 0 ([((1 : Rat), "hello")].map Prod.fst),
           listMaxD (0 + 10) ([((1 : Rat), "hello")].map Prod.fst)⟩ :=
  (extract_segment_spec "[0:00:01] hello\n[0:00:20] bye" "0:00:00" 10 0
    [((1 : Rat), "hello")] (by with_unfolding_all rfl)
    (by with_unfolding_all rfl)).1

theorem pyEnum_get {α : Type} :
    ∀ (l : List α) (n i : Nat) (a : α),
      l.get? i = some a → (n + i, a) ∈ pyEnum n l
  | [], _, i, _, h => by cases i <;> cases h
  | b :: t, n, i, a, h => by
    cases i with
    | zero =>
      have hb : b = a := by simpa using h
      subst hb
      exact List.mem_cons_self _ _
    | succ j =>
      have hm := pyEnum_get t (n + 1) j a (by simpa using h)
      have e : n + (j + 1) = n + 1 + j := by omega
      rw [e]
      exact List.mem_cons_of_mem _ hm

theorem pyEnum_mem {α : Type} :
    ∀ (l : List α) (n : Nat) (x : Nat × α),
      x ∈ pyEnum n l → n ≤ x.1 ∧ l.get? (x.1 - n) = some x.2
  | [], _, x, h => absurd h (List.not_mem_nil x)
  | b :: t, n, x, h => by
    rcases List.mem_cons.mp h with rfl | h'
    · exact ⟨le_refl n, by simp⟩
    · have ih := pyEnum_mem t (n + 1) x h'
      refine ⟨by omega, ?_⟩
      have hidx : x.1 - n = (x.1 - (n + 1)) + 1 := by omega
      rw [hidx]
      simpa using ih.2

theorem pyEnum_pair_sublist {α : Type} :
    ∀ (l : List α) (n i j : Nat) (a b : α),
      i < j → l.get? i = some a → l.get? j = some b →
      [(n + i, a), (n + j, b)].Sublist (pyEnum n l)
  | [], _, i, _, _, _, _, hi, _ => by cases i <;> cases hi
  | c :: t, n, i, j, a, b, hij, hi, hj => by
    cases i with
    | zero =>
      have hac : c = a := by simpa using hi
      subst hac
      cases j with
      | zero => omega
      | succ j' =>
        have hj' : t.get? j' = some b := by simpa using hj
        have hmem : (n + 1 + j', b) ∈ pyEnum (n + 1) t :=
          pyEnum_get t (n + 1) j' b hj'
        have hsub : [(n + (j' + 1), b)].Sublist (pyEnum (n + 1) t) := by
          have e : n + (j' + 1) = n + 1 + j' := by omega
          rw [e]
          exact List.singleton_sublist.mpr hmem
        exact List.Sublist.cons₂ _ hsub
    | succ i' =>
      cases j with
      | zero => omega
      | succ j' =>
        have hi' : t.get? i' = some a := by simpa using hi
        have hj' : t.get? j' = some b := by simpa using hj
        have ih := pyEnum_pair_sublist t (n + 1) i' j' a b (by omega) hi' hj'
        have e1 : n + (i' + 1) = n + 1 + i' := by omega
        have e2 : n + (j' + 1) = n + 1 + j' := by omega
        rw [e1, e2]
        exact List.Sublist.cons _ ih

/-- A successful run of the segment loop accumulates exactly the
filter-map of the per-iteration results over the enumerated segments. -/
theorem buildPaths_ok {V : Type} (videos : List V)
    (f : Nat → V → JValue → Option String) (g : Nat → JValue → Option String) :
    ∀ (ps : List (Nat × JValue)) (acc L : List String),
      buildPaths videos f g ps acc = .ok L →
      L = acc ++ ps.filterMap (stepOut videos f g)
  | [], acc, L, h => by
    have : acc = L := by simpa [buildPaths] using h
    simp [this]
  | p :: rest, acc, L, h => by
    rw [buildPaths] at h
    cases hs : planStep videos f g p with
    | error e => rw [hs] at h; cases h
    | ok oc =>
      rw [hs] at h
      cases oc with
      | none =>
        have ih := buildPaths_ok videos f g rest acc L h
        have hso : stepOut videos f g p = none := by simp [stepOut, hs]
        simp [List.filterMap_cons, hso, ih]
      | some path =>
        have ih := buildPaths_ok videos f g rest (acc ++ [path]) L h
        have hso : stepOut videos f g p = some path := by simp [stepOut, hs]
        simp [List.filterMap_cons, hso, ih]

theorem nodup_filterMap_pyEnum {V : Type} (videos : List V)
    (f : Nat → V → JValue → Option String) (g : Nat → JValue → Option String)
    (hinj : ∀ i si j sj p, stepOut videos f g (i, si) = some p →
        stepOut videos f g (j, sj) = some p → i = j) :
    ∀ (l : List JValue) (n : Nat),
      ((pyEnum n l).filterMap (stepOut videos f g)).Nodup
  | [], _ => by simp [pyEnum]
  | s :: t, n => by
    show (((n, s) :: pyEnum (n + 1) t).filterMap (stepOut videos f g)).Nodup
    rw [List.filterMap_cons]
    cases hs : stepOut videos f g (n, s) with
    | none => exact nodup_filterMap_pyEnum videos f g hinj t (n + 1)
    | some p =>
      refine List.Nodup.cons ?_ (nodup_filterMap_pyEnum videos f g hinj t (n + 1))
      intro hmem
      rcases List.mem_filterMap.mp hmem with ⟨x, hx, hpx⟩
      obtain ⟨xi, xv⟩ := x
      have h1 := pyEnum_mem t (n + 1) (xi, xv) hx
      have h2 := hinj n s xi xv p hs hpx
      simp only at h1
      omega

/-- Claim C5: in the effective create_trailer_from_plan, the clip paths
assembled into the final trailer are exactly the per-segment productions
in plan order: a segment whose clip creation returns None contributes
nothing and does not disturb the relative order of the others (the
produced pair of any two producing segments is a sublist of the result),
and - as the produced path names embed the loop index - no clip is
duplicated. -/
theorem create_trailer_order {V : Type} (videos : List V)
    (f : Nat → V → JValue → Option String) (g : Nat → JValue → Option String)
    (segments : List JValue) (L : List String)
    (hok : createTrailerPaths videos f g segments = .ok L)
    (hinj : ∀ i si j sj p, stepOut videos f g (i, si) = some p →
        stepOut videos f g (j, sj) = some p → i = j) :
    L = (pyEnum 0 segments).filterMap (stepOut videos f g) ∧
    (∀ i si p, segments.get? i = some si →
        stepOut videos f g (i, si) = some p → p ∈ L) ∧
    (∀ i j si sj pi pj, i < j →
        segments.get? i = some si → segments.get? j = some sj →
        stepOut videos f g (i, si) = some pi →
        stepOut videos f g (j, sj) = some pj →
        [pi, pj].Sublist L) ∧
    L.Nodup := by
  have hL : L = (pyEnum 0 segments).filterMap (stepOut videos f g) := by
    simpa using buildPaths_ok videos f g (pyEnum 0 segments) [] L hok
  refine ⟨hL, ?_, ?_, ?_⟩
  · intro i si p hget hstep
    rw [hL]
    have hm := pyEnum_get segments 0 i si hget
    rw [Nat.zero_add] at hm
    exact List.mem_filterMap.mpr ⟨(i, si), hm, hstep⟩
  · intro i j si sj pi pj hij hgi hgj hsi hsj
    rw [hL]
    have hsub := pyEnum_pair_sublist segments 0 i j si sj hij hgi hgj
    rw [Nat.zero_add, Nat.zero_add] at hsub
    have hfm := hsub.filterMap (stepOut videos f g)
    simpa [List.filterMap_cons, hsi, hsj] using hfm
  · rw [hL]
    exact nodup_filterMap_pyEnum videos f g hinj segments 0

/-- Inversion of a producing loop iteration: the path came from the
video-segment oracle or from the transition-slide oracle. -/
theorem stepOut_some {V : Type} (videos : List V)
    (f : Nat → V → JValue → Option String) (g : Nat → JValue → Option String)
    (i : Nat) (s : JValue) (p : String)
    (h : stepOut videos f g (i, s) = some p) :
    (∃ v, f i v s = some p) ∨ g i s = some p := by
  unfold stepOut at h
  cases hps : planStep videos f g (i, s) with
  | error e => rw [hps] at h; cases h
  | ok oc =>
    rw [hps] at h
    cases oc with
    | none => cases h
    | some q =>
      have hpq : q = p := by simpa using h
      subst hpq
      cases s with
      | jobj fs =>
        rw [planStep] at hps
        repeat' split at hps
        all_goals first
          | exact Or.inl ⟨_, Except.ok.inj hps⟩
          | exact Or.inr (Except.ok.inj hps)
          | cases hps
      | jnull => simp [planStep] at hps
      | jbool b => simp [planStep] at hps
      | jint z => simp [planStep] at hps
      | jfloat r => simp [planStep] at hps
      | jstr t => simp [planStep] at hps
      | jarr es => simp [planStep] at hps

/-- Concrete instance of claim C5: one video and one transition segment
with index-tagged clip names give a duplicate-free pair of paths. -/
theorem create_trailer_order_witness :
    (["a", "bb"] : List String).Nodup := by
  refine (create_trailer_order [()] fWitness gWitness segsWitness
    ["a", "bb"] rfl ?_).2.2.2
  intro i si j sj p h1 h2
  rcases stepOut_some [()] fWitness gWitness i si p h1 with ⟨v1, hf1⟩ | hg1 <;>
    rcases stepOut_some [()] fWitness gWitness j sj p h2 with ⟨v2, hf2⟩ | hg2
  · have e1 : String.mk (List.replicate (i + 1) 'a') = p := by
      simpa [fWitness] using hf1
    have e2 : String.mk (List.replicate (j + 1) 'a') = p := by
      simpa [fWitness] using hf2
    have eL : List.replicate (i + 1) 'a' = List.replicate (j + 1) 'a' :=
      congrArg String.data (e1.trans e2.symm)
    have := congrArg List.length eL
    simp at this
    omega
  · have e1 : String.mk (List.replicate (i + 1) 'a') = p := by
      simpa [fWitness] using hf1
    have e2 : String.mk (List.replicate (j + 1) 'b') = p := by
      simpa [gWitness] using hg2
    have eL : List.replicate (i + 1) 'a' = List.replicate (j + 1) 'b' :=
      congrArg String.data (e1.trans e2.symm)
    rw [List.replicate_succ, List.replicate_succ] at eL
    injection eL with hhead _
    exact absurd hhead (by decide)
  · have e1 : String.mk (List.replicate (i + 1) 'b') = p := by
      simpa [gWitness] using hg1
    have e2 : String.mk (List.replicate (j + 1) 'a') = p := by
      simpa [fWitness] using hf2
    have eL : List.replicate (i + 1) 'b' = List.replicate (j + 1) 'a' :=
      congrArg String.data (e1.trans e2.symm)
    rw [List.replicate_succ, List.replicate_succ] at eL
    injection eL with hhead _
    exact absurd hhead (by decide)
  · have e1 : String.mk (List.replicate (i + 1) 'b') = p := by
      simpa [gWitness] using hg1
    have e2 : String.mk (List.replicate (j + 1) 'b') = p := by
      simpa [gWitness] using hg2
    have eL : List.replicate (i + 1) 'b' = List.replicate (j + 1) 'b' :=
      congrArg String.data (e1.trans e2.symm)
    have := congrArg List.length eL
    simp at this
    omega

/-- Claim C10: with a non-empty videos list and a nonnegative integer
video_id, the computed index is a valid index into videos - selecting
the video never fails - and a video_id exceeding the number of videos is
silently clamped to the last video. -/
theorem video_index_safe (n : Nat) (z : Int) (hn : n ≠ 0) (hz : 0 ≤ z) :
    0 ≤ clampVideoIndex n z ∧ clampVideoIndex n z < (n : Int) ∧
    ((n : Int) < z → clampVideoIndex n z = (n : Int) - 1) ∧
    (∀ {V : Type} (videos : List V), videos.length = n →
        (pyListGet videos (clampVideoIndex n z)).isSome = true) := by
  have hcl : clampVideoIndex n z =
      min (if 0 < z then z - 1 else z) ((n : Int) - 1) := by
    simp only [clampVideoIndex]
    rw [if_neg hn]
  have hz1 : 0 ≤ (if 0 < z then z - 1 else z) := by split <;> omega
  have h0 : 0 ≤ clampVideoIndex n z := by
    rw [hcl]; exact le_min hz1 (by omega)
  have hlt : clampVideoIndex n z < (n : Int) := by
    rw [hcl]; exact lt_of_le_of_lt (min_le_right _ _) (by omega)
  refine ⟨h0, hlt, ?_, ?_⟩
  · intro hbig
    rw [hcl, if_pos (by omega)]
    exact min_eq_right (by omega)
  · intro V videos hlen
    simp only [pyListGet]
    split
    · rename_i hneg
      exact absurd hneg (not_lt.mpr h0)
    · split
      · rfl
      · rename_i hcontra
        exact absurd ⟨h0, by rw [hlen]; exact hlt⟩ hcontra

/-- Concrete instance of claim C10: two videos and video_id 5 select the
last video. -/
theorem video_index_safe_witness :
    0 ≤ clampVideoIndex 2 5 ∧ clampVideoIndex 2 5 < (2 : Int) ∧
    clampVideoIndex 2 5 = (2 : Int) - 1 ∧
    (pyListGet [(), ()] (clampVideoIndex 2 5)).isSome = true := by
  have h := video_index_safe 2 5 (by decide) (by decide)
  exact ⟨h.1, h.2.1, h.2.2.1 (by decide), h.2.2.2 [(), ()] rfl⟩

end SupporterVideo
